import Mathlib

/-!
Verification of the structured-parse labeled-text parsing engine.

The repository ships a Python wrapper (src/python/structured_parse/parser.py)
around a parsing engine compiled to WebAssembly from Go; the engine source is
not part of the repository snapshot, so the engine itself is modelled from the
specification (its component contracts in sections 4.1-4.5), while the wrapper
data types (Label, ParserOptions) follow the Python source directly.
-/

namespace StructuredParse

/-- Label definition, following the Python dataclass `Label` in
src/python/structured_parse/parser.py: name (case-insensitive matching,
original casing preserved), required flag, required-with dependency list,
JSON flag, block-start flag. -/
structure LabelSpec where
  name : String
  required : Bool
  requiredWith : List String
  isJson : Bool
  isBlockStart : Bool
  deriving DecidableEq, Repr

/-- A plain label with all flags off. -/
def mkLabel (n : String) : LabelSpec :=
  ⟨n, false, [], false, false⟩

/-- Parser configuration: the set of characters accepted as label/value
separator, following spec section 3 (ParserConfig). -/
structure ParserConfig where
  separators : List Char
  deriving DecidableEq, Repr

/-- Default separator set: the characters of ":~-=" (spec sections 3 and 6). -/
def defaultSeparators : List Char :=
  [':', '~', '-', '=']

/-- JSON values, as produced by the engine's JSON sub-field decoder.
Numbers keep their source lexeme. -/
inductive Json where
  | null : Json
  | bool (b : Bool) : Json
  | num (s : String) : Json
  | str (s : String) : Json
  | arr (xs : List Json) : Json
  | obj (fs : List (String × Json)) : Json

/-- Whitespace characters skipped by the JSON decoder. -/
def jsonWs (c : Char) : Bool :=
  c = ' ' || c = '\t' || c = '\n' || c = '\r'

/-- Drop leading JSON whitespace. -/
def skipWs : List Char → List Char
  | [] => []
  | c :: cs => if jsonWs c then skipWs cs else c :: cs

/-- Single-character JSON string escapes. -/
def escChar (c : Char) : Option Char :=
  if c = '"' then some '"'
  else if c = '\\' then some '\\'
  else if c = '/' then some '/'
  else if c = 'b' then some (Char.ofNat 8)
  else if c = 'f' then some (Char.ofNat 12)
  else if c = 'n' then some '\n'
  else if c = 'r' then some '\r'
  else if c = 't' then some '\t'
  else none

/-- Hexadecimal digit value. -/
def hexVal (c : Char) : Option Nat :=
  if '0' ≤ c ∧ c ≤ '9' then some (c.toNat - '0'.toNat)
  else if 'a' ≤ c ∧ c ≤ 'f' then some (c.toNat - 'a'.toNat + 10)
  else if 'A' ≤ c ∧ c ≤ 'F' then some (c.toNat - 'A'.toNat + 10)
  else none

/-- Parse the body of a JSON string literal (opening quote already consumed);
returns the decoded characters and the remaining input. -/
def pStringBody : List Char → Except String (List Char × List Char)
  | [] => Except.error "unterminated string literal"
  | '"' :: rest => Except.ok ([], rest)
  | '\\' :: 'u' :: a :: b :: c :: d :: rest =>
      match hexVal a, hexVal b, hexVal c, hexVal d with
      | some ha, some hb, some hc, some hd =>
          (pStringBody rest).map fun p =>
            (Char.ofNat (((ha * 16 + hb) * 16 + hc) * 16 + hd) :: p.1, p.2)
      | _, _, _, _ => Except.error "invalid unicode escape"
  | '\\' :: e :: rest =>
      match escChar e with
      | some c => (pStringBody rest).map fun p => (c :: p.1, p.2)
      | none => Except.error "invalid escape character"
  | c :: rest => (pStringBody rest).map fun p => (c :: p.1, p.2)

/-- Take the leading run of decimal digits. -/
def spanDigits (cs : List Char) : List Char × List Char :=
  (cs.takeWhile Char.isDigit, cs.dropWhile Char.isDigit)

/-- Parse an optional exponent part after the given prefix lexeme. -/
def pExpPart (pre : List Char) (cs : List Char) : Except String (String × List Char) :=
  match cs with
  | [] => Except.ok (String.mk pre, [])
  | e :: rest =>
      if e = 'e' ∨ e = 'E' then
        let sgn := match rest with
          | c :: r => if c = '+' ∨ c = '-' then ([c], r) else ([], rest)
          | [] => ([], rest)
        let ds := spanDigits sgn.2
        if ds.1 = [] then Except.error "invalid number syntax"
        else Except.ok (String.mk (pre ++ e :: sgn.1 ++ ds.1), ds.2)
      else Except.ok (String.mk pre, cs)

/-- Parse a JSON number lexeme. -/
def pNumber (cs : List Char) : Except String (String × List Char) :=
  let sign := match cs with
    | '-' :: r => (['-'], r)
    | _ => (([] : List Char), cs)
  let ip := spanDigits sign.2
  if ip.1 = [] then Except.error "invalid number syntax"
  else
    match ip.2 with
    | '.' :: r =>
        let fp := spanDigits r
        if fp.1 = [] then Except.error "invalid number syntax"
        else pExpPart (sign.1 ++ ip.1 ++ '.' :: fp.1) fp.2
    | _ => pExpPart (sign.1 ++ ip.1) ip.2

mutual

/-- Fuel-bounded parser for one JSON value. -/
def pValue : Nat → List Char → Except String (Json × List Char)
  | 0, _ => Except.error "value nesting too deep"
  | Nat.succ fuel, cs =>
      match skipWs cs with
      | [] => Except.error "unexpected end of JSON input"
      | 'n' :: 'u' :: 'l' :: 'l' :: rest => Except.ok (Json.null, rest)
      | 't' :: 'r' :: 'u' :: 'e' :: rest => Except.ok (Json.bool true, rest)
      | 'f' :: 'a' :: 'l' :: 's' :: 'e' :: rest => Except.ok (Json.bool false, rest)
      | '"' :: rest => (pStringBody rest).map fun p => (Json.str (String.mk p.1), p.2)
      | '\x7b' :: rest =>
          (match skipWs rest with
          | '\x7d' :: r2 => Except.ok (Json.obj [], r2)
          | r2 => (pMembers fuel r2).map fun p => (Json.obj p.1, p.2))
      | '[' :: rest =>
          (match skipWs rest with
          | ']' :: r2 => Except.ok (Json.arr [], r2)
          | r2 => (pElems fuel r2).map fun p => (Json.arr p.1, p.2))
      | c :: rest =>
          if c = '-' ∨ c.isDigit then
            (pNumber (c :: rest)).map fun p => (Json.num p.1, p.2)
          else Except.error "invalid character in JSON value"

/-- Fuel-bounded parser for the elements of a non-empty JSON array. -/
def pElems : Nat → List Char → Except String (List Json × List Char)
  | 0, _ => Except.error "value nesting too deep"
  | Nat.succ fuel, cs =>
      match pValue fuel cs with
      | Except.error e => Except.error e
      | Except.ok (j, r) =>
          match skipWs r with
          | ',' :: r2 => (pElems fuel r2).map fun p => (j :: p.1, p.2)
          | ']' :: r2 => Except.ok ([j], r2)
          | _ => Except.error "expected comma or closing bracket in array"

/-- Fuel-bounded parser for the members of a non-empty JSON object. -/
def pMembers : Nat → List Char → Except String (List (String × Json) × List Char)
  | 0, _ => Except.error "value nesting too deep"
  | Nat.succ fuel, cs =>
      match skipWs cs with
      | '"' :: rest =>
          (match pStringBody rest with
          | Except.error e => Except.error e
          | Except.ok (k, r) =>
              match skipWs r with
              | ':' :: r2 =>
                  (match pValue fuel r2 with
                  | Except.error e => Except.error e
                  | Except.ok (v, r3) =>
                      match skipWs r3 with
                      | ',' :: r4 =>
                          (pMembers fuel r4).map fun p =>
                            ((String.mk k, v) :: p.1, p.2)
                      | '\x7d' :: r4 => Except.ok ([(String.mk k, v)], r4)
                      | _ => Except.error "expected comma or closing brace in object")
              | _ => Except.error "expected colon after object key")
      | _ => Except.error "expected string key in object"

end

/-- Modelled from the spec: the engine's JSON sub-field decoder (spec section
4.3 "attempt to decode the trimmed buffer as a JSON value"); the compiled Go
engine performing the decoding is absent from the repository snapshot.
Decodes a complete JSON document, rejecting trailing characters. -/
def jsonDecode (s : String) : Except String Json :=
  match pValue (2 * s.length + 2) s.toList with
  | Except.error e => Except.error e
  | Except.ok (j, rest) =>
      match skipWs rest with
      | [] => Except.ok j
      | _ => Except.error "unexpected trailing characters"

/-- A final field value in a Record: a trimmed string, or a decoded JSON
value for `isJson` fields. -/
inductive Value where
  | str (s : String) : Value
  | json (j : Json) : Value

/-- A Record: ordered mapping from canonical label name to final value
(spec section 3); keys appear in first-recognition order. -/
abbrev Record := List (String × Value)

/-- Whitespace for line scanning and value trimming. -/
def isWsChar (c : Char) : Bool :=
  c = ' ' || c = '\t' || c = '\n' || c = '\r'

/-- Trim leading and trailing whitespace from a character list. -/
def trimChars (cs : List Char) : List Char :=
  ((cs.dropWhile isWsChar).reverse.dropWhile isWsChar).reverse

/-- Split text into physical lines on the newline character (spec section
4.2: newline-delimited, no further normalization). -/
def splitLinesAux : List Char → List Char → List (List Char)
  | [], acc => [acc.reverse]
  | '\n' :: cs, acc => acc.reverse :: splitLinesAux cs []
  | c :: cs, acc => splitLinesAux cs (c :: acc)

/-- Split a string into its physical lines. -/
def splitLines (s : String) : List (List Char) :=
  splitLinesAux s.toList []

/-- Is the record key `k` present? -/
def hasKey (r : Record) (k : String) : Bool :=
  r.any fun p => p.1 == k

/-- Write `k ↦ v` into the record: overwrite in place if the key exists
(last-write-wins, spec section 4.3), else append, preserving
first-recognition key order (spec section 3). -/
def setKey (r : Record) (k : String) (v : Value) : Record :=
  if hasKey r k then r.map fun p => if p.1 == k then (k, v) else p
  else r ++ [(k, v)]

/-- Case-insensitive match of a label name against the start of a line;
returns the remainder of the line after the name. -/
def matchName : List Char → List Char → Option (List Char)
  | [], cs => some cs
  | _ :: _, [] => none
  | n :: ns, c :: cs => if n.toLower == c.toLower then matchName ns cs else none

/-- Modelled from the spec: the Label Registry / Line Scanner test for one
label (spec sections 4.1-4.2); the compiled Go engine is absent from the
repository snapshot. Matches the label name case-insensitively at the start
of `cs`, then optional whitespace, then a separator character; returns the
inline value region (after the separator and any immediately following
whitespace). -/
def matchLabel (seps : List Char) (cs : List Char) (l : LabelSpec) : Option (List Char) :=
  match matchName l.name.toList cs with
  | none => none
  | some rest =>
      match rest.dropWhile isWsChar with
      | [] => none
      | c :: cs2 => if seps.contains c then some (cs2.dropWhile isWsChar) else none

/-- Modelled from the spec: the Label Registry's ambiguity resolution (spec
section 4.1): among all labels matching at a scan position, prefer the
longest name, breaking ties by declaration order (spec section 9); leading
whitespace on the line is ignored (spec section 4.2). -/
def bestMatch (labels : List LabelSpec) (seps : List Char) (line : List Char) :
    Option (LabelSpec × List Char) :=
  labels.foldl
    (fun acc l =>
      match matchLabel seps (line.dropWhile isWsChar) l with
      | none => acc
      | some v =>
          match acc with
          | none => some (l, v)
          | some best =>
              if best.1.name.length < l.name.length then some (l, v) else acc)
    none

/-- Modelled from the spec: the Field Finalizer (spec section 4.3); the
compiled Go engine is absent from the repository snapshot. Trims the buffer;
for `isJson` labels attempts JSON decoding, storing the decoded value on
success, and on failure storing the raw trimmed string and appending the
diagnostic `"<label>: invalid JSON: <decode error>"`. -/
def finalizeField (l : LabelSpec) (buf : List Char) (r : Record) (ds : List String) :
    Record × List String :=
  let t := String.mk (trimChars buf)
  if l.isJson then
    match jsonDecode t with
    | Except.ok j => (setKey r l.name (Value.json j), ds)
    | Except.error e =>
        (setKey r l.name (Value.str t), ds ++ [l.name ++ ": invalid JSON: " ++ e])
  else (setKey r l.name (Value.str t), ds)

/-- Modelled from the spec: the Validator (spec section 4.4); the compiled Go
engine is absent from the repository snapshot. Appends `"<label> is
required"` for each required label absent from the record, then for each
present label with dependencies, `"<label> requires <dep>"` for each absent
dependency; the relation is directional as declared. -/
def validate (labels : List LabelSpec) (r : Record) : List String :=
  (labels.filterMap fun l =>
    if l.required && !(hasKey r l.name) then some (l.name ++ " is required") else none)
  ++ labels.flatMap fun l =>
      if hasKey r l.name then
        l.requiredWith.filterMap fun d =>
          if hasKey r d then none else some (l.name ++ " requires " ++ d)
      else []

/-- Modelled from the spec: the Line Scanner / Value Accumulator loop (spec
sections 4.2-4.3); the compiled Go engine is absent from the repository
snapshot. Processes lines in order, opening a new field on a label match
(flushing any open field), appending non-matching lines to the open field's
buffer, discarding non-matching lines when no field is open, and flushing
the final open field at end of input. -/
def parseGo (labels : List LabelSpec) (seps : List Char) :
    List (List Char) → Option (LabelSpec × List Char) → Record → List String →
    Record × List String
  | [], cur, r, ds =>
      match cur with
      | none => (r, ds)
      | some (l, buf) => finalizeField l buf r ds
  | line :: rest, cur, r, ds =>
      match bestMatch labels seps line with
      | some (l, v) =>
          match cur with
          | none => parseGo labels seps rest (some (l, v)) r ds
          | some (l2, buf) =>
              let fin := finalizeField l2 buf r ds
              parseGo labels seps rest (some (l, v)) fin.1 fin.2
      | none =>
          match cur with
          | none => parseGo labels seps rest none r ds
          | some (l2, buf) =>
              parseGo labels seps rest (some (l2, buf ++ '\n' :: line)) r ds

/-- Number of labels carrying the block-start flag. -/
def countBlockStart (labels : List LabelSpec) : Nat :=
  (labels.filter fun l => l.isBlockStart).length

/-- Configuration errors (spec section 7): structurally invalid label setup,
fatal to the call. -/
inductive ConfigError where
  | multipleBlockStart : ConfigError
  | noBlockStart : ConfigError
  deriving DecidableEq

/-- The separator set in effect: the config's set, or the default when the
config is omitted (spec section 6). -/
def effSeparators (cfg : Option ParserConfig) : List Char :=
  match cfg with
  | some c => c.separators
  | none => defaultSeparators

/-- Modelled from the spec: single-record parsing, one pass of Scanner →
Accumulator → Finalizer → Validator (spec section 2); Registry construction
fails on more than one block-start label (spec section 4.1). -/
def parse (labels : List LabelSpec) (text : String) (cfg : Option ParserConfig) :
    Except ConfigError (Record × List String) :=
  if 1 < countBlockStart labels then Except.error ConfigError.multipleBlockStart
  else
    let core := parseGo labels (effSeparators cfg) (splitLines text) none [] []
    Except.ok (core.1, core.2 ++ validate labels core.1)

/-- Close the current block: finalize the pending field, validate the
completed record, append the record and its diagnostics (spec section 4.5). -/
def closeBlock (labels : List LabelSpec) (r : Record) (l : LabelSpec) (buf : List Char)
    (recs : List Record) (ds : List String) : List Record × List String :=
  let fin := finalizeField l buf r ds
  (recs ++ [fin.1], fin.2 ++ validate labels fin.1)

/-- Modelled from the spec: the Block Segmenter state machine (spec section
4.5); the compiled Go engine is absent from the repository snapshot. The
state is `none` (NoBlockOpen) or `some` of the accumulating record with the
open field. A block-start match closes any open block and opens a fresh one;
with no block open, other lines contribute nothing; at end of input an open
block is closed. -/
def blocksGo (labels : List LabelSpec) (seps : List Char) :
    List (List Char) → Option (Record × LabelSpec × List Char) →
    List Record → List String → List Record × List String
  | [], none, recs, ds => (recs, ds)
  | [], some (r, l, buf), recs, ds => closeBlock labels r l buf recs ds
  | line :: rest, st, recs, ds =>
      match bestMatch labels seps line with
      | some (l, v) =>
          if l.isBlockStart then
            match st with
            | none => blocksGo labels seps rest (some ([], l, v)) recs ds
            | some (r, l2, buf) =>
                let closed := closeBlock labels r l2 buf recs ds
                blocksGo labels seps rest (some ([], l, v)) closed.1 closed.2
          else
            match st with
            | none => blocksGo labels seps rest none recs ds
            | some (r, l2, buf) =>
                let fin := finalizeField l2 buf r ds
                blocksGo labels seps rest (some (fin.1, l, v)) recs fin.2
      | none =>
          match st with
          | none => blocksGo labels seps rest none recs ds
          | some (r, l2, buf) =>
              blocksGo labels seps rest (some (r, l2, buf ++ '\n' :: line)) recs ds

/-- Modelled from the spec: block-mode parsing (spec sections 4.5 and 6);
fails with a configuration error on more than one block-start label, or on
zero block-start labels in block mode. -/
def parseBlocks (labels : List LabelSpec) (text : String) (cfg : Option ParserConfig) :
    Except ConfigError (List Record × List String) :=
  if 1 < countBlockStart labels then Except.error ConfigError.multipleBlockStart
  else if countBlockStart labels = 0 then Except.error ConfigError.noBlockStart
  else Except.ok (blocksGo labels (effSeparators cfg) (splitLines text) none [] [])

/-- Parser options of the Python wrapper (src/python/structured_parse/
parser.py, class ParserOptions): an optional separator override string. -/
structure ParserOptions where
  separators : Option String

/-- Serialization `ParserOptions.to_dict` from the Python source: the
`separators` entry is emitted only when the field is truthy, i.e. set and
non-empty. -/
def ParserOptions.toDict (o : ParserOptions) : List (String × String) :=
  match o.separators with
  | some s => if s = "" then [] else [("separators", s)]
  | none => []

/-- Request assembly from `StructuredParser._call_wasm`: the options object
is serialized into the request only when present. -/
def requestOptions (opts : Option ParserOptions) : Option (List (String × String)) :=
  opts.map ParserOptions.toDict

/-- Modelled from the spec: the engine's separator resolution — a
`separators` override in the request replaces the default set, otherwise
the default `":~-="` applies (spec section 6). -/
def engineSeparators (reqOpts : Option (List (String × String))) : List Char :=
  match reqOpts with
  | none => defaultSeparators
  | some d =>
      match d.lookup "separators" with
      | some s => s.toList
      | none => defaultSeparators

/-- The separator set that ends up in effect for a wrapper call carrying the
given options. -/
def effectiveSeparators (opts : Option ParserOptions) : List Char :=
  engineSeparators (requestOptions opts)

/-! Concrete label configurations used by the spec's testable properties. -/

/-- The plain "Action" label. -/
def actionLabel : LabelSpec := mkLabel "Action"

/-- The plain "Action Input" label. -/
def actionInputLabel : LabelSpec := mkLabel "Action Input"

/-- The "Task" label marked as block start. -/
def taskLabel : LabelSpec := ⟨"Task", false, [], false, true⟩

/-- A second label marked as block start, for the invalid-configuration case. -/
def otherStartLabel : LabelSpec := ⟨"Other", false, [], false, true⟩

/-- The "Input" label marked as JSON. -/
def inputLabel : LabelSpec := ⟨"Input", false, [], true, false⟩

/-- The plain "Result" label. -/
def resultLabel : LabelSpec := ⟨"Result", false, [], false, false⟩

/-- The "Data" label marked as JSON. -/
def dataLabel : LabelSpec := ⟨"Data", false, [], true, false⟩

/-- Label "A" declaring a one-directional dependency on "B". -/
def aDepLabel : LabelSpec := ⟨"A", false, ["B"], false, false⟩

/-- Label "B" with no dependencies. -/
def bPlainLabel : LabelSpec := ⟨"B", false, [], false, false⟩

/-- The required "Name" label. -/
def nameReqLabel : LabelSpec := ⟨"Name", true, [], false, false⟩

/-- The "Email" label depending on "Name". -/
def emailDepLabel : LabelSpec := ⟨"Email", false, ["Name"], false, false⟩

/-- Overwriting the entry of an existing key leaves key presence unchanged. -/
theorem hasKey_overwrite (r : Record) (k : String) (v : Value) :
    hasKey (r.map fun p => if p.1 == k then (k, v) else p) k = hasKey r k := by
  induction r with
  | nil => rfl
  | cons p ps ih =>
      by_cases hp : p.1 == k
      · have hp' : p.1 = k := by simpa using hp
        simp [hasKey, hp', hp]
      · simp only [List.map_cons, hasKey, List.any_cons, if_neg hp] at ih ⊢
        rw [ih]

/-- After `setKey r k v` the key `k` is present. -/
theorem hasKey_setKey (r : Record) (k : String) (v : Value) :
    hasKey (setKey r k v) k = true := by
  unfold setKey
  split
  · next h => rw [hasKey_overwrite]; exact h
  · simp [hasKey]

/-- No line of `lines` is matched to a block-start label by the scanner. -/
def noBlockStartHit (labels : List LabelSpec) (seps : List Char)
    (lines : List (List Char)) : Bool :=
  lines.all fun line =>
    match bestMatch labels seps line with
    | some m => !m.1.isBlockStart
    | none => true

/-- While no block is open, lines that do not match the block-start label
leave the segmenter state and output untouched. -/
theorem blocksGo_no_start (labels : List LabelSpec) (seps : List Char) :
    ∀ (lines : List (List Char)) (recs : List Record) (ds : List String),
      noBlockStartHit labels seps lines = true →
      blocksGo labels seps lines none recs ds = (recs, ds) := by
  intro lines
  induction lines with
  | nil => intro recs ds _; rfl
  | cons line rest ih =>
      intro recs ds h
      rw [noBlockStartHit, List.all_cons, Bool.and_eq_true] at h
      cases hb : bestMatch labels seps line with
      | none =>
          simp only [blocksGo, hb]
          exact ih recs ds h.2
      | some m =>
          obtain ⟨l, v⟩ := m
          have hl : l.isBlockStart = false := by
            have hh := h.1
            rw [hb] at hh
            simpa using hh
          simp only [blocksGo, hb, hl, Bool.false_eq_true, if_false]
          exact ih recs ds h.2

/-- C1: with labels whose names are prefixes of one another, the scanner
prefers the longest matching name at a scan position, in either declaration
order; concretely, with "Action" and "Action Input" configured, the line
"Action Input: x" populates the field "Action Input" and never "Action". -/
theorem c1_longest_label_match :
    (∀ (l1 l2 : LabelSpec) (seps cs v1 v2 : List Char),
      matchLabel seps (cs.dropWhile isWsChar) l1 = some v1 →
      matchLabel seps (cs.dropWhile isWsChar) l2 = some v2 →
      l1.name.length < l2.name.length →
      bestMatch [l1, l2] seps cs = some (l2, v2) ∧
      bestMatch [l2, l1] seps cs = some (l2, v2)) ∧
    parse [actionLabel, actionInputLabel] "Action Input: x" none =
      Except.ok ([("Action Input", Value.str "x")], []) ∧
    parse [actionInputLabel, actionLabel] "Action Input: x" none =
      Except.ok ([("Action Input", Value.str "x")], []) := by
  refine ⟨?_, rfl, rfl⟩
  intro l1 l2 seps cs v1 v2 hm1 hm2 hlen
  constructor
  · simp [bestMatch, hm1, hm2, hlen]
  · simp [bestMatch, hm1, hm2, Nat.lt_asymm hlen]

/-- Witness for C1: labels "A" and "A-B" both match the line "A-B: x" (the
hyphen is a separator character), and the longer name wins in both
declaration orders. -/
theorem c1_longest_label_match_witness :
    bestMatch [mkLabel "A", mkLabel "A-B"] defaultSeparators ("A-B: x".toList) =
      some (mkLabel "A-B", ['x']) ∧
    bestMatch [mkLabel "A-B", mkLabel "A"] defaultSeparators ("A-B: x".toList) =
      some (mkLabel "A-B", ['x']) :=
  c1_longest_label_match.1 (mkLabel "A") (mkLabel "A-B") defaultSeparators
    ("A-B: x".toList) ("B: x".toList) ['x'] (by decide) (by decide) (by decide)

/-- C2: finalizing a field whose label is marked JSON and whose trimmed
buffer fails JSON decoding stores the raw trimmed string under the label's
canonical name (the key is always present afterwards) and appends exactly
one diagnostic of the form "label: invalid JSON: decode error"; concretely,
the value "\x7bnot valid json" round-trips as that raw string with one such
diagnostic. -/
theorem c2_json_fallback :
    (∀ (l : LabelSpec) (buf : List Char) (r : Record) (ds : List String) (e : String),
      l.isJson = true →
      jsonDecode (String.mk (trimChars buf)) = Except.error e →
      finalizeField l buf r ds =
        (setKey r l.name (Value.str (String.mk (trimChars buf))),
          ds ++ [l.name ++ ": invalid JSON: " ++ e]) ∧
      hasKey (finalizeField l buf r ds).1 l.name = true) ∧
    parse [dataLabel] "Data: \x7bnot valid json" none =
      Except.ok ([("Data", Value.str "\x7bnot valid json")],
        ["Data: invalid JSON: expected string key in object"]) := by
  refine ⟨?_, rfl⟩
  intro l buf r ds e hj hd
  unfold finalizeField
  simp only [hj, if_true, hd]
  exact ⟨trivial, hasKey_setKey r l.name _⟩

/-- Witness for C2: the "Data" label marked JSON, buffer "\x7bnot valid
json", on which the decoder fails with "expected string key in object". -/
theorem c2_json_fallback_witness :
    finalizeField dataLabel ("\x7bnot valid json".toList) [] [] =
      (setKey [] dataLabel.name
        (Value.str (String.mk (trimChars ("\x7bnot valid json".toList)))),
        [] ++ [dataLabel.name ++ ": invalid JSON: " ++ "expected string key in object"]) ∧
    hasKey (finalizeField dataLabel ("\x7bnot valid json".toList) [] []).1
      dataLabel.name = true :=
  c2_json_fallback.1 dataLabel ("\x7bnot valid json".toList) [] []
    "expected string key in object" rfl rfl

/-- C3: with labels Task (block start), Input (JSON), Result, block-mode
parsing of "Task: A\nResult: 1\nTask: B\nResult: 2" yields exactly the two
records Task=A/Result=1 and Task=B/Result=2, in that order, and no
diagnostics. -/
theorem c3_block_segmentation :
    parseBlocks [taskLabel, inputLabel, resultLabel]
        "Task: A\nResult: 1\nTask: B\nResult: 2" none =
      Except.ok
        ([[("Task", Value.str "A"), ("Result", Value.str "1")],
          [("Task", Value.str "B"), ("Result", Value.str "2")]], []) := rfl

/-- C4: configuration errors are fatal and never surface as diagnostics:
with more than one block-start label both operations fail outright, and
block-mode parsing with zero block-start labels fails outright, each
returning an error instead of any records or diagnostics. -/
theorem c4_configuration_errors :
    (∀ (labels : List LabelSpec) (text : String) (cfg : Option ParserConfig),
      1 < countBlockStart labels →
      parse labels text cfg = Except.error ConfigError.multipleBlockStart ∧
      parseBlocks labels text cfg = Except.error ConfigError.multipleBlockStart) ∧
    (∀ (labels : List LabelSpec) (text : String) (cfg : Option ParserConfig),
      countBlockStart labels = 0 →
      parseBlocks labels text cfg = Except.error ConfigError.noBlockStart) := by
  constructor
  · intro labels text cfg h
    exact ⟨by simp [parse, h], by simp [parseBlocks, h]⟩
  · intro labels text cfg h
    simp [parseBlocks, h]

/-- Witness for C4: two block-start labels make both operations fail, and a
label list with no block-start label makes block-mode parsing fail. -/
theorem c4_configuration_errors_witness :
    (parse [taskLabel, otherStartLabel] "Task: A" none =
        Except.error ConfigError.multipleBlockStart ∧
      parseBlocks [taskLabel, otherStartLabel] "Task: A" none =
        Except.error ConfigError.multipleBlockStart) ∧
    parseBlocks [actionLabel] "Action: x" none =
      Except.error ConfigError.noBlockStart :=
  ⟨c4_configuration_errors.1 [taskLabel, otherStartLabel] "Task: A" none (by decide),
    c4_configuration_errors.2 [actionLabel] "Action: x" none (by decide)⟩

/-- C5: with a valid block-mode configuration, any input in which the
scanner never matches the designated block-start label yields an empty
record sequence (not one empty record) and zero diagnostics. -/
theorem c5_no_block_start_in_text :
    ∀ (labels : List LabelSpec) (text : String) (cfg : Option ParserConfig),
      countBlockStart labels = 1 →
      noBlockStartHit labels (effSeparators cfg) (splitLines text) = true →
      parseBlocks labels text cfg = Except.ok ([], []) := by
  intro labels text cfg hc hn
  have h := blocksGo_no_start labels (effSeparators cfg) (splitLines text) [] [] hn
  simp [parseBlocks, hc, h]

/-- Witness for C5: Task is the block-start label, and the input
"Result: 1\nhello world" never mentions it. -/
theorem c5_no_block_start_in_text_witness :
    parseBlocks [taskLabel, resultLabel] "Result: 1\nhello world" none =
      Except.ok ([], []) :=
  c5_no_block_start_in_text [taskLabel, resultLabel] "Result: 1\nhello world" none
    (by decide) (by decide)

/-- C6: the requiredWith dependency is directional as declared: with label
"A" depending on "B" and "B" declaring nothing, any record containing "B"
without "A" validates cleanly, while any record containing "A" without "B"
yields exactly the diagnostic "A requires B"; concretely, parsing "B: x"
yields no diagnostics and parsing "A: x" yields exactly that one. -/
theorem c6_required_with_directional :
    (∀ r : Record, hasKey r "B" = true → hasKey r "A" = false →
      validate [aDepLabel, bPlainLabel] r = []) ∧
    (∀ r : Record, hasKey r "A" = true → hasKey r "B" = false →
      validate [aDepLabel, bPlainLabel] r = ["A requires B"]) ∧
    parse [aDepLabel, bPlainLabel] "B: x" none =
      Except.ok ([("B", Value.str "x")], []) ∧
    parse [aDepLabel, bPlainLabel] "A: x" none =
      Except.ok ([("A", Value.str "x")], ["A requires B"]) := by
  refine ⟨?_, ?_, rfl, rfl⟩
  · intro r hB hA
    simp [validate, aDepLabel, bPlainLabel, hB, hA]
  · intro r hA hB
    simp [validate, aDepLabel, bPlainLabel, hA, hB]

/-- Witness for C6: the single-key records coming from the two inputs of
the claim. -/
theorem c6_required_with_directional_witness :
    validate [aDepLabel, bPlainLabel] [("B", Value.str "x")] = [] ∧
    validate [aDepLabel, bPlainLabel] [("A", Value.str "x")] = ["A requires B"] :=
  ⟨c6_required_with_directional.1 [("B", Value.str "x")] rfl rfl,
    c6_required_with_directional.2.1 [("A", Value.str "x")] rfl rfl⟩

/-- C7: the default separator set is the characters of ":~-=", and omitting
the optional parser configuration is indistinguishable from passing a
configuration carrying exactly the default separators, for both parsing
operations. -/
theorem c7_default_separator_config :
    defaultSeparators = ":~-=".toList ∧
    ∀ (labels : List LabelSpec) (text : String),
      parse labels text none = parse labels text (some ⟨defaultSeparators⟩) ∧
      parseBlocks labels text none =
        parseBlocks labels text (some ⟨defaultSeparators⟩) :=
  ⟨rfl, fun _ _ => ⟨rfl, rfl⟩⟩

/-- C8 counterexample: with labels Name (required) and Email (depending on
Name), parsing "Email: x@y.com" produces two diagnostics, not exactly the
one diagnostic "Name is required" asserted by the claim. -/
theorem c8_missing_required_counterexample :
    (parse [nameReqLabel, emailDepLabel] "Email: x@y.com" none).toOption.map
        (fun p => p.2) =
      some ["Name is required", "Email requires Name"] := rfl

/-- C8 (amended): with labels Name (required) and Email (depending on
Name), parsing "Email: x@y.com" returns a record containing only the key
Email, and the diagnostics are exactly "Name is required" followed by
"Email requires Name": the validator reports both the required violation
and the requiredWith violation. -/
theorem c8_missing_required_amended :
    parse [nameReqLabel, emailDepLabel] "Email: x@y.com" none =
      Except.ok ([("Email", Value.str "x@y.com")],
        ["Name is required", "Email requires Name"]) := rfl

/-- C9: both parsing operations are deterministic pure functions of their
arguments: calls with equal label lists, texts, and configurations return
identical results, with no state carried between calls. -/
theorem c9_deterministic_pure :
    ∀ (labels labels2 : List LabelSpec) (text text2 : String)
      (cfg cfg2 : Option ParserConfig),
      labels = labels2 → text = text2 → cfg = cfg2 →
      parse labels text cfg = parse labels2 text2 cfg2 ∧
      parseBlocks labels text cfg = parseBlocks labels2 text2 cfg2 := by
  intro labels labels2 text text2 cfg cfg2 h1 h2 h3
  subst h1
  subst h2
  subst h3
  exact ⟨rfl, rfl⟩

/-- Witness for C9: two identical calls agree. -/
theorem c9_deterministic_pure_witness :
    parse [actionLabel] "Action: x" none = parse [actionLabel] "Action: x" none ∧
    parseBlocks [actionLabel] "Action: x" none =
      parseBlocks [actionLabel] "Action: x" none :=
  c9_deterministic_pure [actionLabel] [actionLabel] "Action: x" "Action: x"
    none none rfl rfl rfl

/-- C10: options with an empty separator string serialize to an empty
dictionary, so no override reaches the engine and the default separator set
applies, exactly as when the options are omitted; consequently no caller
can configure an empty separator set through the wrapper interface. -/
theorem c10_empty_separators_unconfigurable :
    ParserOptions.toDict ⟨some ""⟩ = [] ∧
    effectiveSeparators (some ⟨some ""⟩) = effectiveSeparators none ∧
    effectiveSeparators none = defaultSeparators ∧
    ∀ o : ParserOptions, 0 < (effectiveSeparators (some o)).length := by
  refine ⟨rfl, rfl, rfl, ?_⟩
  intro o
  obtain ⟨sep⟩ := o
  cases sep with
  | none => decide
  | some s =>
      by_cases h : s = ""
      · subst h
        decide
      · have he : effectiveSeparators (some ⟨some s⟩) = s.toList := by
          simp [effectiveSeparators, requestOptions, ParserOptions.toDict, h,
            engineSeparators, List.lookup]
        rw [he]
        obtain ⟨data⟩ := s
        cases data with
        | nil => exact absurd rfl h
        | cons c cs => simp [String.toList]

end StructuredParse

